import Mathlib

/-!
Verification of the `sidewall` rate-limiting module (`sidewall/ratelimit.py`).

The module implements a fixed-window token bucket.  `RateLimit` holds the
quota state; `pause` is the acquisition check (returns `true` meaning
"must wait"); `restock` is the refill check.  The decorator wraps a
function in a loop that sleeps while `pause` denies and then forwards the
call.

Monotonic timestamps (`perf_counter` readings) are modelled as rationals,
token counts as integers (Python integers may go negative).  Each
`perf_counter()` call in the Python code becomes an explicit `now`
argument at the corresponding call site.
-/

namespace Sidewall

/-- State of a `RateLimit` object: `max_calls` and `time_limit` are the
constructor arguments, `token` is the remaining-token counter and `time`
is the start of the current window. -/
structure RateLimit where
  max_calls : Int
  time_limit : ℚ
  token : Int
  time : ℚ
deriving DecidableEq, Repr

/-- `RateLimit.__init__(max_calls, time_limit)`: stores both arguments,
sets `token = max_calls` and `time = perf_counter()` (the construction
instant `now`). -/
def RateLimit.init (max_calls : Int) (time_limit : ℚ) (now : ℚ) : RateLimit :=
  { max_calls := max_calls
    time_limit := time_limit
    token := max_calls
    time := now }

/-- `RateLimit.restock`: reads `now = perf_counter()`; if
`now - self.time < self.time_limit` it returns `False` with no state
change, otherwise it sets `self.token = self.max_calls`,
`self.time = now` and returns `True`. -/
def RateLimit.restock (s : RateLimit) (now : ℚ) : Bool × RateLimit :=
  if now - s.time < s.time_limit then
    (false, s)
  else
    (true, { s with token := s.max_calls, time := now })

/-- `RateLimit.pause`: `if self.token <= 0 and not self.restock(): return
True`, otherwise `self.token -= 1; return False`.  Python's `and`
short-circuits, so `restock` runs (and may mutate state) only when
`self.token <= 0`. -/
def RateLimit.pause (s : RateLimit) (now : ℚ) : Bool × RateLimit :=
  if s.token ≤ 0 then
    let r := s.restock now
    if r.1 then
      (false, { r.2 with token := r.2.token - 1 })
    else
      (true, r.2)
  else
    (false, { s with token := s.token - 1 })

/-- A sequence of `pause` calls, one per supplied `perf_counter` reading;
returns the list of results and the final bucket state. -/
def pauseSeq : RateLimit → List ℚ → List Bool × RateLimit
  | s, [] => ([], s)
  | s, t :: ts =>
    let r := s.pause t
    let rest := pauseSeq r.2 ts
    (r.1 :: rest.1, rest.2)

/-- A sequence of bare `restock` calls, one per supplied `perf_counter`
reading; returns the final bucket state. -/
def restockSeq : RateLimit → List ℚ → RateLimit
  | s, [] => s
  | s, t :: ts => restockSeq (s.restock t).2 ts

/-- The duration the wrapper sleeps when `pause` denies:
`obj.time_limit - (now - obj.time)` with `now = perf_counter()` read
inside the loop body. -/
def sleepDuration (s : RateLimit) (now : ℚ) : ℚ :=
  s.time_limit - (now - s.time)

/-- `limit_wrapper`: loop `while obj.pause(): sleep(...)`, then
`return func(*args, **kwargs)`.  The wrapped call is modelled as a
function into `Except ε β` so that raised errors are explicit.  The list
supplies one `perf_counter` reading per loop iteration; `none` means the
supplied readings were exhausted before the loop exited. -/
def limit_wrapper_run {α ε β : Type} (f : α → Except ε β) (args : α) :
    RateLimit → List ℚ → Option (Except ε β × RateLimit)
  | _, [] => none
  | s, t :: ts =>
    let r := s.pause t
    if r.1 then
      limit_wrapper_run f args r.2 ts
    else
      some (f args, r.2)

/-- Sample bucket with tokens available and an active window. -/
def bucketA : RateLimit :=
  { max_calls := 5, time_limit := 60, token := 2, time := 0 }

/-- Sample bucket with tokens exhausted and an active window. -/
def bucketB : RateLimit :=
  { max_calls := 5, time_limit := 60, token := 0, time := 0 }

/-- Sample degenerate bucket constructed with `max_calls = 0`. -/
def bucketZ : RateLimit :=
  { max_calls := 0, time_limit := 60, token := 0, time := 0 }

end Sidewall

namespace Sidewall

/-- C1: `pause` implements the spec's decision logic: with tokens
available it decrements the count and returns `false` (proceed); with
`token ≤ 0` it consults `restock`, returning `true` (must wait) when the
refill fails and otherwise proceeding with one token consumed from the
freshly replenished count `max_calls`. -/
theorem pause_decision_logic (s : RateLimit) (now : ℚ) :
    (0 < s.token → s.pause now = (false, { s with token := s.token - 1 })) ∧
    (s.token ≤ 0 → now - s.time < s.time_limit → s.pause now = (true, s)) ∧
    (s.token ≤ 0 → ¬ now - s.time < s.time_limit →
      s.pause now = (false, { s with token := s.max_calls - 1, time := now })) := by
  unfold RateLimit.pause RateLimit.restock
  refine ⟨?_, ?_, ?_⟩ <;> intro h <;> split_ifs with h1 <;> simp_all <;> omega

/-- C1 witness: the three branches exercised on concrete buckets. -/
theorem pause_decision_logic_witness :
    (bucketA.pause 1 = (false, { bucketA with token := 1 })) ∧
    (bucketB.pause 1 = (true, bucketB)) ∧
    (bucketB.pause 70 = (false, { bucketB with token := 4, time := 70 })) := by
  refine ⟨?_, ?_, ?_⟩
  · exact (pause_decision_logic bucketA 1).1 (by decide)
  · exact (pause_decision_logic bucketB 1).2.1 (by decide) (by norm_num [bucketB])
  · exact (pause_decision_logic bucketB 70).2.2 (by decide) (by norm_num [bucketB])

/-- C2: `restock` returns `false` and leaves the state unchanged when
`now - windowStart < windowSeconds`; otherwise it resets the token count
to `max_calls`, sets the window start to `now`, and returns `true`. -/
theorem restock_spec (s : RateLimit) (now : ℚ) :
    (now - s.time < s.time_limit → s.restock now = (false, s)) ∧
    (¬ now - s.time < s.time_limit →
      s.restock now = (true, { s with token := s.max_calls, time := now })) := by
  unfold RateLimit.restock
  constructor <;> intro h <;> simp [h]

/-- C2 witness: both branches on a concrete bucket. -/
theorem restock_spec_witness :
    (bucketB.restock 1 = (false, bucketB)) ∧
    (bucketB.restock 70 = (true, { bucketB with token := 5, time := 70 })) := by
  constructor
  · exact (restock_spec bucketB 1).1 (by norm_num [bucketB])
  · exact (restock_spec bucketB 70).2 (by norm_num [bucketB])

/-- Helper: while the quota covers the whole sequence, every `pause`
takes the fast path (decrement, return `false`) and the window fields
are untouched. -/
theorem pauseSeq_under_quota (times : List ℚ) (s : RateLimit)
    (h : (times.length : Int) ≤ s.token) :
    pauseSeq s times
      = (List.replicate times.length false,
         { s with token := s.token - times.length }) := by
  induction times generalizing s with
  | nil => simp [pauseSeq]
  | cons t ts ih =>
    have hlen : (ts.length : Int) + 1 ≤ s.token := by
      simpa [Nat.cast_add] using h
    have htok : ¬ s.token ≤ 0 := by omega
    have hp : s.pause t = (false, { s with token := s.token - 1 }) := by
      unfold RateLimit.pause
      rw [if_neg htok]
    have hrec := ih { s with token := s.token - 1 }
      (show (ts.length : Int) ≤ s.token - 1 by omega)
    simp only [pauseSeq, hp, hrec, List.length_cons, List.replicate_succ,
      Prod.mk.injEq, RateLimit.mk.injEq]
    refine ⟨trivial, trivial, trivial, ?_, trivial⟩
    push_cast
    ring

/-- C3: starting from a fresh window of a bucket built with
`max_calls ≥ 1`, any sequence of at most `max_calls` acquisition
attempts, all made while the window is still active, returns `false`
(proceed) every time, so the wrapper never blocks for such a
sequence. -/
theorem fresh_window_no_blocking (max_calls : Int) (time_limit t0 : ℚ)
    (times : List ℚ) (hmax : 1 ≤ max_calls)
    (hlen : (times.length : Int) ≤ max_calls)
    (hwin : ∀ t ∈ times, t - t0 < time_limit) :
    (pauseSeq (RateLimit.init max_calls time_limit t0) times).1
      = List.replicate times.length false := by
  rw [pauseSeq_under_quota times (RateLimit.init max_calls time_limit t0) hlen]

/-- C3 witness: the spec's concrete scenario, `max_calls = 2`,
`time_limit = 1`, calls at `t = 0` and `t = 1/10`. -/
theorem fresh_window_no_blocking_witness :
    (pauseSeq (RateLimit.init 2 1 0) [0, 1/10]).1 = [false, false] := by
  have h := fresh_window_no_blocking 2 1 0 [0, 1/10] (by decide)
    (by norm_num) (by norm_num)
  simpa using h

/-- C4: when `pause` denies (no tokens and the window still active), the
bucket is unchanged, the wrapper's sleep of
`time_limit - (now - time)` ends exactly at `windowStart + windowSeconds`,
and the retried acquisition at that instant refills the bucket and
proceeds with one token of the fresh quota consumed. -/
theorem deny_sleep_retry (s : RateLimit) (now1 now2 : ℚ)
    (htok : s.token ≤ 0) (hwin : now1 - s.time < s.time_limit) :
    s.pause now1 = (true, s) ∧
    now2 + sleepDuration s now2 = s.time + s.time_limit ∧
    s.pause (s.time + s.time_limit)
      = (false, { s with token := s.max_calls - 1,
                         time := s.time + s.time_limit }) := by
  refine ⟨?_, ?_, ?_⟩
  · unfold RateLimit.pause RateLimit.restock
    rw [if_pos htok]
    simp [hwin]
  · unfold sleepDuration
    ring
  · unfold RateLimit.pause RateLimit.restock
    rw [if_pos htok]
    have hfull : ¬ s.time + s.time_limit - s.time < s.time_limit := by
      simp
    simp [hfull]

/-- C4 witness: the exhausted bucket `bucketB` denies at `t = 1`, the
sleep computed at `t = 1/2` ends at `t = 60`, and the retry at `t = 60`
proceeds with a replenished bucket. -/
theorem deny_sleep_retry_witness :
    bucketB.pause 1 = (true, bucketB) ∧
    (1/2 : ℚ) + sleepDuration bucketB (1/2) = bucketB.time + bucketB.time_limit ∧
    bucketB.pause (bucketB.time + bucketB.time_limit)
      = (false, { bucketB with token := bucketB.max_calls - 1,
                               time := bucketB.time + bucketB.time_limit }) :=
  deny_sleep_retry bucketB 1 (1/2) (by decide) (by norm_num [bucketB])

/-- C5: for a bucket with positive `max_calls`, the range
`0 ≤ token ≤ max_calls` is preserved by every completed `pause` call,
and a full window reset (a `restock` that reports `true`) restores the
count to exactly `max_calls` with no carryover. -/
theorem token_range_invariant (s : RateLimit) (now : ℚ)
    (hmax : 1 ≤ s.max_calls) (h0 : 0 ≤ s.token) (h1 : s.token ≤ s.max_calls) :
    (0 ≤ (s.pause now).2.token ∧ (s.pause now).2.token ≤ s.max_calls) ∧
    ((s.restock now).1 = true → (s.restock now).2.token = s.max_calls) := by
  unfold RateLimit.pause RateLimit.restock
  split_ifs <;> simp_all <;> omega

/-- C5 witness: the invariant instantiated on `bucketB` (token count 0,
active window). -/
theorem token_range_invariant_witness :
    (0 ≤ (bucketB.pause 1).2.token ∧ (bucketB.pause 1).2.token ≤ bucketB.max_calls) ∧
    ((bucketB.restock 1).1 = true → (bucketB.restock 1).2.token = bucketB.max_calls) :=
  token_range_invariant bucketB 1 (by decide) (by decide) (by decide)

/-- C6: repeated `restock` calls while the window is still active are
idempotent — the whole bucket state, in particular `token` and `time`,
is unchanged after any such sequence of calls. -/
theorem restock_idempotent_within_window (s : RateLimit) (times : List ℚ)
    (hwin : ∀ t ∈ times, t - s.time < s.time_limit) :
    restockSeq s times = s := by
  induction times with
  | nil => rfl
  | cons t ts ih =>
    have h1 : s.restock t = (false, s) := by
      unfold RateLimit.restock
      rw [if_pos (hwin t (List.mem_cons_self t ts))]
    calc restockSeq s (t :: ts) = restockSeq (s.restock t).2 ts := rfl
      _ = restockSeq s ts := by rw [h1]
      _ = s := ih fun u hu => hwin u (List.mem_cons_of_mem t hu)

/-- C6 witness: three refill attempts inside `bucketB`'s active window
leave it unchanged. -/
theorem restock_idempotent_within_window_witness :
    restockSeq bucketB [1, 2, 3] = bucketB := by
  have h := restock_idempotent_within_window bucketB [1, 2, 3]
    (by norm_num [bucketB])
  simpa using h

/-- C7: the window-start field `time` is written only when a refill
actually occurs: a failed `restock` keeps it, a `pause` inside the active
window keeps it, a `pause` that consumes an existing token keeps it, and
a denying `pause` keeps it. -/
theorem windowStart_frame (s : RateLimit) (now : ℚ) :
    ((s.restock now).1 = false → (s.restock now).2.time = s.time) ∧
    (now - s.time < s.time_limit → (s.pause now).2.time = s.time) ∧
    (0 < s.token → (s.pause now).2.time = s.time) ∧
    ((s.pause now).1 = true → (s.pause now).2.time = s.time) := by
  unfold RateLimit.pause RateLimit.restock
  split_ifs <;> simp_all

/-- C7 witness: the frame condition instantiated on `bucketB` inside its
window. -/
theorem windowStart_frame_witness :
    (bucketB.restock 1).2.time = bucketB.time ∧
    (bucketB.pause 1).2.time = bucketB.time := by
  have h := windowStart_frame bucketB 1
  exact ⟨h.1 (by norm_num [bucketB, RateLimit.restock]),
         h.2.1 (by norm_num [bucketB])⟩

/-- C8: whenever the wrapper's loop terminates, the value it returns is
exactly the wrapped call `f args` — the result (including an
`Except.error`) is forwarded unchanged, never caught, translated or
retried. -/
theorem wrapper_forwards_call {α ε β : Type} (f : α → Except ε β) (args : α)
    (s : RateLimit) (times : List ℚ) (res : Except ε β) (s2 : RateLimit)
    (h : limit_wrapper_run f args s times = some (res, s2)) :
    res = f args := by
  induction times generalizing s with
  | nil => simp [limit_wrapper_run] at h
  | cons t ts ih =>
    by_cases hb : (s.pause t).1
    · rw [limit_wrapper_run, if_pos hb] at h
      exact ih (s.pause t).2 h
    · rw [limit_wrapper_run, if_neg hb] at h
      exact (Prod.mk.injEq .. ▸ Option.some.injEq .. ▸ h).1.symm

/-- C8 witness: a wrapped call that raises is forwarded unchanged
through a run that acquires immediately on `bucketA`. -/
theorem wrapper_forwards_call_witness :
    (Except.error 7 : Except Nat Int)
      = (fun _ : Int => (Except.error 7 : Except Nat Int)) 0 :=
  wrapper_forwards_call (fun _ : Int => (Except.error 7 : Except Nat Int)) 0
    bucketA [1] (Except.error 7) { bucketA with token := 1 }
    (by simp [limit_wrapper_run, RateLimit.pause, bucketA])

/-- C9: the deny path is atomic — whenever `pause` returns `true`, the
entire bucket state is exactly what it was before the call. -/
theorem deny_leaves_state_unchanged (s : RateLimit) (now : ℚ)
    (h : (s.pause now).1 = true) : (s.pause now).2 = s := by
  unfold RateLimit.pause RateLimit.restock at h ⊢
  split_ifs at h ⊢ <;> simp_all

/-- C9 witness: the deny at `t = 1` on the exhausted `bucketB` leaves it
unchanged. -/
theorem deny_leaves_state_unchanged_witness : (bucketB.pause 1).2 = bucketB :=
  deny_leaves_state_unchanged bucketB 1
    (by norm_num [bucketB, RateLimit.pause, RateLimit.restock])

/-- C10: with the degenerate, unvalidated configuration
`max_calls = 0`, an acquisition once the window has elapsed refills,
proceeds (returns `false`) and leaves `token = -1`, violating
non-negativity; a further acquisition inside the new window is denied,
so exactly one call per window is admitted. -/
theorem degenerate_zero_max_calls (s : RateLimit) (now next : ℚ)
    (hmax : s.max_calls = 0) (htok : s.token ≤ 0)
    (helapsed : ¬ now - s.time < s.time_limit) :
    s.pause now = (false, { s with token := -1, time := now }) ∧
    (next - now < s.time_limit →
      ({ s with token := -1, time := now } : RateLimit).pause next
        = (true, { s with token := -1, time := now })) := by
  constructor
  · unfold RateLimit.pause RateLimit.restock
    rw [if_pos htok]
    simp [helapsed, hmax]
  · intro hnext
    unfold RateLimit.pause RateLimit.restock
    rw [if_pos (by decide : (-1 : Int) ≤ 0)]
    simp [hnext]

/-- C10 witness: the degenerate bucket `bucketZ` admits the call at
`t = 70` (window elapsed), ending with `token = -1`, and denies the
follow-up at `t = 100` inside the new window. -/
theorem degenerate_zero_max_calls_witness :
    bucketZ.pause 70 = (false, { bucketZ with token := -1, time := 70 }) ∧
    ({ bucketZ with token := -1, time := 70 } : RateLimit).pause 100
      = (true, { bucketZ with token := -1, time := 70 }) := by
  have h := degenerate_zero_max_calls bucketZ 70 100 (by decide) (by decide)
    (by norm_num [bucketZ])
  exact ⟨h.1, h.2 (by norm_num [bucketZ])⟩

end Sidewall
